import Mathlib

/-
  Verification of the stateless signed-download and on-demand archive
  delivery subsystem of the wedding-photos application.

  The subsystem lives in the Express server (`GET /api/download/:token`,
  `POST /api/request-download`, `cleanupZipCache`).  The embedding below
  follows that file:
  - configuration constants (lines 234-241),
  - the JWT token codec (`jwt.sign` at issuance, `jwt.verify` at retrieval),
  - the zip cache directory on disk and its hourly cleanup sweep,
  - the download endpoint, split at its `await` points into the atomic
    synchronous prefix (verify + cache check) and the build/install phase,
    which is how Node's single-threaded event loop actually schedules
    concurrent requests against this handler.

  External collaborators (the JWT library, SHA-256, S3, the database) are
  modelled at their interfaces; each such model carries a comment saying
  exactly what is idealized.
-/

namespace WeddingPhotos

/-- `MAX_PHOTO_SELECTION` (line 237, default '50'). -/
def MAX_PHOTO_SELECTION : Nat := 50

/-- `ZIP_CACHE_MAX_AGE = 60 * 60 * 1000` (line 240): one hour in milliseconds. -/
def ZIP_CACHE_MAX_AGE : Nat := 3600000

/-- `DOWNLOAD_LINK_EXPIRY = 7 * 24 * 60 * 60` (line 241): seven days in seconds. -/
def DOWNLOAD_LINK_EXPIRY : Nat := 604800

/-- `ZIP_CACHE_DIR = '/tmp/zips'` (line 239), as a character list. -/
def ZIP_CACHE_DIR : List Char := ['/', 't', 'm', 'p', '/', 'z', 'i', 'p', 's']

/-! ### Decimal rendering of natural numbers

`photo.id.toString()` and the numeric JSON fields of the JWT payload render
numbers in decimal.  `natRepr n` is the usual most-significant-digit-first
decimal string of `n`; it is built from a fuel-driven structural recursion so
that concrete instances reduce inside `decide`. -/

/-- The character of a single decimal digit. -/
def digitChar (d : Nat) : Char := Char.ofNat (48 + d)

/-- The value of a decimal digit character. -/
def digitVal (c : Char) : Nat := c.toNat - 48

/-- Whether a character is a decimal digit. -/
def isDigitCh (c : Char) : Bool := decide (48 ≤ c.toNat) && decide (c.toNat ≤ 57)

/-- Decimal digits of `n`, least significant first; `fuel` bounds the recursion. -/
def natDigitsAux : Nat → Nat → List Nat
  | 0, _ => []
  | fuel + 1, n => if n = 0 then [] else n % 10 :: natDigitsAux fuel (n / 10)

/-- Decimal digits of `n`, least significant first, nonempty (`0` renders as `[0]`). -/
def natDigitsLSB (n : Nat) : List Nat :=
  if n = 0 then [0] else natDigitsAux n n

/-- `n.toString`: the decimal rendering of `n`, most significant digit first. -/
def natRepr (n : Nat) : List Char := ((natDigitsLSB n).map digitChar).reverse

/-- Reading a least-significant-first digit list back as a number. -/
def valRev : List Nat → Nat
  | [] => 0
  | d :: ds => d + 10 * valRev ds

theorem valRev_natDigitsAux : ∀ fuel n, n ≤ fuel → valRev (natDigitsAux fuel n) = n := by
  intro fuel
  induction fuel with
  | zero => intro n h; interval_cases n; rfl
  | succ fuel ih =>
    intro n h
    by_cases h0 : n = 0
    · simp [natDigitsAux, h0, valRev]
    · have hdiv : n / 10 ≤ fuel := by
        have : n / 10 < n := Nat.div_lt_self (Nat.pos_of_ne_zero h0) (by omega)
        omega
      simp only [natDigitsAux, h0, if_false, valRev, ih _ hdiv]
      omega

theorem valRev_natDigitsLSB (n : Nat) : valRev (natDigitsLSB n) = n := by
  by_cases h0 : n = 0
  · simp [natDigitsLSB, h0, valRev]
  · simp only [natDigitsLSB, h0, if_false]
    exact valRev_natDigitsAux n n (Nat.le_refl n)

theorem natDigitsAux_lt : ∀ fuel n, ∀ d ∈ natDigitsAux fuel n, d < 10 := by
  intro fuel
  induction fuel with
  | zero => intro n d hd; simp [natDigitsAux] at hd
  | succ fuel ih =>
    intro n d hd
    by_cases h0 : n = 0
    · simp [natDigitsAux, h0] at hd
    · simp only [natDigitsAux, h0, if_false, List.mem_cons] at hd
      rcases hd with hd | hd
      · omega
      · exact ih _ _ hd

theorem natDigitsLSB_lt (n : Nat) : ∀ d ∈ natDigitsLSB n, d < 10 := by
  intro d hd
  by_cases h0 : n = 0
  · simp [natDigitsLSB, h0] at hd; omega
  · simp only [natDigitsLSB, h0, if_false] at hd
    exact natDigitsAux_lt n n d hd

theorem digitVal_digitChar {d : Nat} (h : d < 10) : digitVal (digitChar d) = d := by
  interval_cases d <;> decide

theorem isDigitCh_digitChar {d : Nat} (h : d < 10) : isDigitCh (digitChar d) = true := by
  interval_cases d <;> decide

theorem map_digitVal_digitChar (l : List Nat) (h : ∀ d ∈ l, d < 10) :
    (l.map digitChar).map digitVal = l := by
  induction l with
  | nil => rfl
  | cons a l ih =>
    simp only [List.map_cons, List.cons.injEq]
    exact ⟨digitVal_digitChar (h a (List.mem_cons_self a l)),
      ih fun d hd => h d (List.mem_cons_of_mem a hd)⟩

/-! ### The download token (JWT) codec

`POST /api/request-download` signs `{ photoIds, timestamp: Date.now() }` with
`jwt.sign(..., JWT_SECRET, { expiresIn: DOWNLOAD_LINK_EXPIRY })` (lines
748-755); `GET /api/download/:token` calls `jwt.verify(token, JWT_SECRET)`
(line 889).  The `jsonwebtoken` library is an external collaborator; its
contract is modelled here: a token is its claims payload together with an
HMAC-SHA256 signature over that payload, verification recomputes the
signature, rejects a mismatch as invalid, and then rejects the token as
expired when the clock (in seconds) has reached the `exp` claim
(`exp = iat + expiresIn`). -/

/-- The decoded JWT claims: `photoIds` and `timestamp` are set by the
issuance endpoint (lines 748-752); `exp` (seconds) is added by `jwt.sign`
from `expiresIn`. -/
structure Payload where
  photoIds : List (List Char)
  timestamp : Nat
  exp : Nat
deriving DecidableEq

/-- A signed token: the claims plus the signature over them. -/
structure Token where
  payload : Payload
  sig : Nat
deriving DecidableEq

/-- A numeric code of a string, used as HMAC input material. -/
def stringCode (s : List Char) : Nat :=
  s.foldl (fun a c => a * 1114112 + c.toNat + 1) 0

/-- A numeric code of the whole claims payload: the signature covers every
claim byte-for-byte, which is modelled by feeding every field into the code. -/
def payloadCode (p : Payload) : Nat :=
  Nat.pair (p.photoIds.foldl (fun a s => Nat.pair a (stringCode s)) 0)
    (Nat.pair p.timestamp p.exp)

/-- HMAC-SHA256 of a message under a secret key.  Modelled as the injective
pairing of key and message: the claims the file proves use only that the MAC
is deterministic and that MACs under different keys (or of different
messages) differ, which is the standard unforgeability idealization of the
real primitive. -/
def hmacSHA256 (secret msg : Nat) : Nat := Nat.pair secret msg

/-- `jwt.sign(payload, secret)`: attach the signature to the claims. -/
def jwtSign (secret : Nat) (p : Payload) : Token :=
  ⟨p, hmacSHA256 secret (payloadCode p)⟩

/-- Token issuance as performed by `POST /api/request-download` (lines
748-755): claims are the requested photo ids plus `timestamp = Date.now()`
(milliseconds); `jwt.sign` adds `exp = now-in-seconds + DOWNLOAD_LINK_EXPIRY`. -/
def issueToken (secret nowMs : Nat) (ids : List (List Char)) : Token :=
  jwtSign secret ⟨ids, nowMs, nowMs / 1000 + DOWNLOAD_LINK_EXPIRY⟩

/-- Result of `jwt.verify`: the decoded claims, or the `TokenExpiredError` /
`JsonWebTokenError` branches of lines 890-933. -/
inductive VerifyResult where
  | ok (p : Payload)
  | expired
  | invalid
deriving DecidableEq

/-- `jwt.verify(token, secret)` at clock `nowMs`: signature is checked first
(a mismatched or undecodable token raises `JsonWebTokenError`), then the
token is expired when the clock in seconds has reached `exp`. -/
def jwtVerify (secret nowMs : Nat) (t : Token) : VerifyResult :=
  if t.sig = hmacSHA256 secret (payloadCode t.payload) then
    if t.payload.exp ≤ nowMs / 1000 then .expired else .ok t.payload
  else .invalid

/-! ### The token string and the cache key

The wire form of a JWT is `base64url(header).base64url(payload).signature`;
the endpoint derives its cache key from that string:
`crypto.createHash('sha256').update(token).digest('hex')` (line 944).
`tokenEncode` is the wire form in the model: a leading `'e'` (every real JWT
begins `"eyJ"`), the signature, the photo ids, `exp`, and — last — the
decimal rendering of the `timestamp` claim, with `'.'` separators exactly as
in the JSON/compact serialization.  Digits of the trailing `timestamp` field
are most significant first, as JSON renders numbers. -/

/-- Serialization of the photo-id list inside the payload. -/
def encodeStrings : List (List Char) → List Char
  | [] => []
  | s :: rest => s ++ ',' :: encodeStrings rest

/-- All of the token string except the trailing `timestamp` field. -/
def tokenHead (t : Token) : List Char :=
  'e' :: natRepr t.sig ++ '.' :: encodeStrings t.payload.photoIds
    ++ '.' :: natRepr t.payload.exp

/-- The compact wire form of a token. -/
def tokenEncode (t : Token) : List Char :=
  tokenHead t ++ '.' :: natRepr t.payload.timestamp

/-- `crypto.createHash('sha256')...digest('hex')` (line 944).  The claims
about the cache key use exactly two properties of the digest: determinism
and collision-freeness on the token strings that occur.  Collision
resistance of SHA-256 is a cryptographic assumption with no counterpart in
the embedding, so the digest is idealized as an injective function of its
input — concretely the identity on character lists.  (The real digest is 64
lowercase-hex characters and so never begins with `'t'`; the model preserves
that separation from the `"temp-"` prefix because every token string begins
with `'e'`.) -/
def sha256Hex (s : List Char) : List Char := s

/-- `tokenHash` (line 944): the cache key of a token string. -/
def tokenHash (t : Token) : List Char := sha256Hex (tokenEncode t)

/-- The number encoded in decimal at the tail of a string. -/
def lastNum (s : List Char) : Nat :=
  valRev ((s.reverse.takeWhile isDigitCh).map digitVal)

theorem reverse_natRepr (n : Nat) :
    (natRepr n).reverse = (natDigitsLSB n).map digitChar := by
  simp [natRepr]

theorem lastNum_tokenEncode (t : Token) :
    lastNum (tokenEncode t) = t.payload.timestamp := by
  have hdig : ∀ c ∈ (natDigitsLSB t.payload.timestamp).map digitChar, isDigitCh c := by
    intro c hc
    rcases List.mem_map.1 hc with ⟨d, hd, rfl⟩
    exact isDigitCh_digitChar (natDigitsLSB_lt _ d hd)
  have hrev : (tokenEncode t).reverse
      = (natDigitsLSB t.payload.timestamp).map digitChar
        ++ '.' :: (tokenHead t).reverse := by
    simp [tokenEncode, List.reverse_append, reverse_natRepr]
  rw [lastNum, hrev, List.takeWhile_append_of_pos hdig]
  have hdot : isDigitCh '.' = false := by decide
  simp only [List.takeWhile_cons, hdot, Bool.false_eq_true, if_false, List.append_nil]
  rw [map_digitVal_digitChar _ (natDigitsLSB_lt _), valRev_natDigitsLSB]

theorem timestamp_issueToken (secret nowMs : Nat) (ids : List (List Char)) :
    (issueToken secret nowMs ids).payload.timestamp = nowMs := rfl

/-- C7: for every non-empty itemIds list within the configured maximum count,
issuing a token for it and then verifying that token before expiry returns
exactly the same itemIds (round-trip identity of the claims through the
token codec). -/
theorem C7_round_trip (secret issuedMs verifyMs : Nat) (ids : List (List Char))
    (hne : ids ≠ []) (hmax : ids.length ≤ MAX_PHOTO_SELECTION)
    (hfresh : verifyMs / 1000 < issuedMs / 1000 + DOWNLOAD_LINK_EXPIRY) :
    ∃ p, jwtVerify secret verifyMs (issueToken secret issuedMs ids) = .ok p
      ∧ p.photoIds = ids := by
  refine ⟨⟨ids, issuedMs, issuedMs / 1000 + DOWNLOAD_LINK_EXPIRY⟩, ?_, rfl⟩
  have hexp : ¬ (issuedMs / 1000 + DOWNLOAD_LINK_EXPIRY ≤ verifyMs / 1000) := by omega
  simp [jwtVerify, issueToken, jwtSign, hexp]

theorem C7_witness :
    ∃ p, jwtVerify 0 0 (issueToken 0 0 [['1']]) = .ok p ∧ p.photoIds = [['1']] :=
  C7_round_trip 0 0 0 [['1']] (by decide) (by decide) (by decide)

/-- C8: the cache key is a deterministic digest of the token string itself
(equal token strings give equal cache keys), and two tokens issued for the
identical itemIds at different issue times (`Date.now()` timestamps) have
different token strings and hence different cache keys — independent cache
slots.  Collision resistance of the digest is idealized as injectivity, see
`sha256Hex`. -/
theorem C8_cache_key (secret ms1 ms2 : Nat) (ids : List (List Char))
    (hne : ms1 ≠ ms2) :
    (∀ t1 t2 : Token, tokenEncode t1 = tokenEncode t2 → tokenHash t1 = tokenHash t2)
    ∧ tokenHash (issueToken secret ms1 ids) ≠ tokenHash (issueToken secret ms2 ids) := by
  constructor
  · intro t1 t2 h
    exact congrArg sha256Hex h
  · intro hk
    apply hne
    have he : tokenEncode (issueToken secret ms1 ids)
        = tokenEncode (issueToken secret ms2 ids) := hk
    have h2 := congrArg lastNum he
    rwa [lastNum_tokenEncode, lastNum_tokenEncode, timestamp_issueToken,
      timestamp_issueToken] at h2

theorem C8_witness :
    tokenHash (issueToken 0 0 []) = tokenHash (issueToken 0 0 [])
    ∧ tokenHash (issueToken 0 0 []) ≠ tokenHash (issueToken 0 1 []) :=
  ⟨(C8_cache_key 0 0 1 [] (by decide)).1 _ _ rfl, (C8_cache_key 0 0 1 [] (by decide)).2⟩

/-! ### The archive cache store and the janitor

The cache is the directory `ZIP_CACHE_DIR`, one zip file per cache key,
`fs.renameSync` installing a finished temp file over the final name (line
1052) and `cleanupZipCache` (lines 258-285) sweeping the whole directory
hourly.  A directory is modelled as a list of named files; a zip file's
content is its list of entries (name plus bytes). -/

/-- One entry of a zip archive: `archive.append(buffer, { name })` (line 1031). -/
structure ZipEntry where
  name : List Char
  data : List Nat
deriving DecidableEq

/-- One file in the zip cache directory: its name within `ZIP_CACHE_DIR`,
its `mtimeMs`, and the entries of the archive it holds. -/
structure CacheFile where
  name : List Char
  mtimeMs : Nat
  entries : List ZipEntry
deriving DecidableEq

/-- `fs.existsSync` + open by name: find the file with the given name. -/
def dirLookup (dir : List CacheFile) (n : List Char) : Option CacheFile :=
  dir.find? (fun f => decide (f.name = n))

/-- `fs.unlinkSync`: remove the file with the given name, if present. -/
def dirRemove (dir : List CacheFile) (n : List Char) : List CacheFile :=
  dir.filter (fun f => decide (¬ f.name = n))

/-- `fs.renameSync(tempZipPath, cacheFilePath)` (line 1052): atomically move a
fully written archive over the final cache name, replacing any prior file. -/
def dirInstall (dir : List CacheFile) (n : List Char) (mtime : Nat)
    (es : List ZipEntry) : List CacheFile :=
  dirRemove dir n ++ [⟨n, mtime, es⟩]

/-- `cleanupZipCache` (lines 258-285): stat every file of `ZIP_CACHE_DIR` and
delete those whose age `now - mtimeMs` exceeds `ZIP_CACHE_MAX_AGE` (strict
`>`, line 273); returns the surviving directory and the deleted count. -/
def cleanupZipCache (nowMs : Nat) (dir : List CacheFile) : List CacheFile × Nat :=
  let kept := dir.filter (fun f => decide (nowMs - f.mtimeMs ≤ ZIP_CACHE_MAX_AGE))
  (kept, dir.length - kept.length)

/-! ### The download endpoint -/

/-- An upload row as returned by `dbOps.getAllUploads()`: id, S3 object key
and original filename. -/
structure Photo where
  id : Nat
  s3Key : List Char
  filename : List Char
deriving DecidableEq

/-- The environment of one retrieval: the process `JWT_SECRET`, the clock,
the database contents, and the external object store.  `fetch k` models
`getPresignedDownloadUrl(k)` followed by the `axios.get` of the presigned
URL (lines 1022-1028): `some bytes` on success, `none` when the fetch fails
for that object. -/
structure DownloadEnv where
  secret : Nat
  nowMs : Nat
  uploads : List Photo
  fetch : List Char → Option (List Nat)

/-- `uploads.filter(photo => photoIds.includes(photo.id.toString()))`
(lines 739 and 974). -/
def selectedPhotos (env : DownloadEnv) (photoIds : List (List Char)) : List Photo :=
  env.uploads.filter (fun ph => decide (natRepr ph.id ∈ photoIds))

/-- The per-item fetch loop (lines 1019-1036): each photo whose fetch
succeeds is appended to the archive under its original filename; a failed
fetch is logged and skipped. -/
def buildEntries (env : DownloadEnv) (sel : List Photo) : List ZipEntry :=
  sel.filterMap (fun ph => (env.fetch ph.s3Key).map (fun b => ⟨ph.filename, b⟩))

/-- The terminal outcomes of `GET /api/download/:token`: 410 for an expired
token, 400 for an invalid signature, 400 for a payload without photo ids
(line 938), 404 when no selected photo still exists (line 977), 200
streaming a cached archive (line 959), 200 streaming a freshly built one
(line 1059), and the catch-all 500 of the handler's outer `catch` (line
1062) — reached from archive error events and from a thrown `ENOENT` when
`statSync`/`renameSync` (lines 1048/1052) find the temp path already
renamed away by a concurrent same-key build.  These six statuses
(410/400/404/200/500) are the handler's complete response set. -/
inductive Outcome where
  | expired410
  | invalid400
  | noPhotos400
  | notFound404
  | error500
  | servedCached (entries : List ZipEntry)
  | servedBuilt (entries : List ZipEntry)
deriving DecidableEq

/-- The HTTP status of each outcome. -/
def statusOf : Outcome → Nat
  | .expired410 => 410
  | .invalid400 => 400
  | .noPhotos400 => 400
  | .notFound404 => 404
  | .error500 => 500
  | .servedCached _ => 200
  | .servedBuilt _ => 200

/-- The entries streamed by a 200 outcome. -/
def servesEntries : Outcome → Option (List ZipEntry)
  | .servedCached es => some es
  | .servedBuilt es => some es
  | _ => none

def zipExt : List Char := ['.', 'z', 'i', 'p']

def tempPre : List Char := ['t', 'e', 'm', 'p', '-']

/-- The final cache file name of a token within `ZIP_CACHE_DIR`:
`tokenHash + '.zip'` (line 945). -/
def cacheFileName (t : Token) : List Char := tokenHash t ++ zipExt

/-- The temp file name an archive is built into: `'temp-' + tokenHash +
'.zip'` (line 1004) — in the same directory as the final cache files. -/
def tempZipName (t : Token) : List Char := tempPre ++ (tokenHash t ++ zipExt)

/-- A filesystem path as produced by `path.join(dir, file)`. -/
structure DiskPath where
  dir : List Char
  file : List Char
deriving DecidableEq

/-- `path.join(ZIP_CACHE_DIR, tokenHash + '.zip')` (line 945). -/
def cacheFilePath (t : Token) : DiskPath := ⟨ZIP_CACHE_DIR, cacheFileName t⟩

/-- `path.join(ZIP_CACHE_DIR, 'temp-' + tokenHash + '.zip')` (line 1004). -/
def tempZipPath (t : Token) : DiskPath := ⟨ZIP_CACHE_DIR, tempZipName t⟩

/-- Result of the synchronous prefix of the handler. -/
inductive Step1 where
  | finished (o : Outcome)
  | toBuild
deriving DecidableEq

/-- The synchronous prefix of `GET /api/download/:token` (lines 884-967):
verify the token, reject an empty photo-id payload, then check the cache —
a file younger than `ZIP_CACHE_MAX_AGE` is streamed directly, an older one
is deleted (`fs.unlinkSync`, line 965) before falling through to the build.
Everything here runs before the handler's first `await`, so it is a single
atomic step of the Node event loop. -/
def phase1 (env : DownloadEnv) (t : Token) (dir : List CacheFile) :
    Step1 × List CacheFile :=
  match jwtVerify env.secret env.nowMs t with
  | .expired => (.finished .expired410, dir)
  | .invalid => (.finished .invalid400, dir)
  | .ok p =>
    if p.photoIds = [] then (.finished .noPhotos400, dir)
    else
      match dirLookup dir (cacheFileName t) with
      | some f =>
        if env.nowMs - f.mtimeMs < ZIP_CACHE_MAX_AGE then
          (.finished (.servedCached f.entries), dir)
        else
          (.toBuild, dirRemove dir (cacheFileName t))
      | none => (.toBuild, dir)

/-- The build phase of the handler (lines 969-1060) run WITHOUT concurrent
interference: load the rows for the requested ids; with zero resolved rows
respond 404 without touching the cache; otherwise build the archive from
every fetchable item (failed items are skipped), rename the finished temp
file over the final cache name and stream it.  The returned flag records
whether an archive build ran.  This is the no-interleaving semantics used
only for one-request-at-a-time processing (`handleDownload`, `runSeq`),
where it is exact: alone, the build writes its own temp file, finalizes it,
and the stat+rename tail cannot fail.  The interleaved semantics, in which
the build suspends at the database query, at every item fetch and at
finalize while other requests share the filesystem — including the shared
per-key temp path and its 500-producing rename race — is the fine-grained
step model below (`stepFine`). -/
def phase2 (env : DownloadEnv) (t : Token) (dir : List CacheFile) :
    Outcome × List CacheFile × Bool :=
  let sel := selectedPhotos env t.payload.photoIds
  if sel = [] then (.notFound404, dir, false)
  else
    let es := buildEntries env sel
    (.servedBuilt es, dirInstall dir (cacheFileName t) env.nowMs es, true)

/-- The full result of one request processed to completion. -/
structure DownloadResult where
  outcome : Outcome
  dir : List CacheFile
  builds : Nat
deriving DecidableEq

/-- One request of `GET /api/download/:token` run start to finish with no
interleaving: the synchronous prefix followed, on a cache miss, by the build
phase.  Faithful for sequential processing only; concurrent executions are
modelled by `stepFine`/`runFine` below. -/
def handleDownload (env : DownloadEnv) (t : Token) (dir : List CacheFile) :
    DownloadResult :=
  match phase1 env t dir with
  | (.finished o, d1) => ⟨o, d1, 0⟩
  | (.toBuild, d1) =>
    match phase2 env t d1 with
    | (o, d2, built) => ⟨o, d2, if built then 1 else 0⟩

/-! ### Concurrent requests: the fine-grained interleaved model

Node runs the handler single-threaded, so atomic steps are exactly the
stretches between `await`s.  For `GET /api/download/:token` these are:

  1. the synchronous prefix — token verification, photoIds check, cache
     stat, stale unlink (lines 884-967), ending at `await getAllUploads()`;
  2. the resume after the database query — the zero-resolve 404 check and,
     otherwise, `archiver(...)` plus `fs.createWriteStream(tempZipPath)`
     (lines 974-1007), ending at the first item's fetch `await`;
  3. one step per referenced item — the presigned-URL and `axios.get`
     `await`s, then `archive.append` (lines 1019-1036), whose bytes land in
     whatever file the request's open stream points at;
  4. the resume after `await finalizePromise` — the synchronous tail
     `statSync(tempZipPath)`, `renameSync(tempZipPath, cacheFilePath)` and
     the response stream (lines 1048-1060); `statSync` throws `ENOENT` into
     the catch-all 500 when the temp path is gone (a concurrent same-key
     build renamed it away).

Because concurrent same-key builds share the one temp path
`temp-<hash>.zip` and `createWriteStream` truncates the file already there,
the filesystem must be modelled at the inode level: a table of file
contents (inodes) plus a directory of name bindings; an open stream holds
an inode, and writes through it reach that inode wherever its name binding
has moved.  Archive writes are modelled at entry granularity: each
successful fetch appends its entry to the stream's inode. -/

/-- A directory entry: a name bound to an inode, with the stat mtime. -/
structure Binding where
  name : List Char
  mtimeMs : Nat
  inode : Nat
deriving DecidableEq

/-- The shared filesystem: inode contents (indexed by inode number) and the
name bindings of the zip cache directory. -/
structure FsState where
  inodes : List (List ZipEntry)
  dirents : List Binding
deriving DecidableEq

/-- `fs.existsSync`/`statSync` by name. -/
def fsLookup (fs : FsState) (n : List Char) : Option Binding :=
  fs.dirents.find? (fun b => decide (b.name = n))

/-- `fs.unlinkSync`: drop the binding of a name. -/
def fsUnbind (fs : FsState) (n : List Char) : FsState :=
  ⟨fs.inodes, fs.dirents.filter (fun b => decide (¬ b.name = n))⟩

/-- Read an inode's content. -/
def fsRead (fs : FsState) (j : Nat) : List ZipEntry :=
  fs.inodes.getD j []

/-- `fs.createWriteStream(n)` (flag `w`): if `n` is bound, truncate the
inode already there and write through it; otherwise allocate a fresh empty
inode and bind `n` to it.  Returns the inode the stream writes to. -/
def fsCreate (fs : FsState) (n : List Char) (mtime : Nat) : FsState × Nat :=
  match fsLookup fs n with
  | some b => (⟨fs.inodes.set b.inode [], fs.dirents⟩, b.inode)
  | none =>
    (⟨fs.inodes ++ [[]], fs.dirents ++ [⟨n, mtime, fs.inodes.length⟩]⟩,
      fs.inodes.length)

/-- A write through an open stream: append an entry to the stream's inode,
wherever its binding has moved meanwhile. -/
def fsAppend (fs : FsState) (j : Nat) (e : ZipEntry) : FsState :=
  ⟨fs.inodes.set j (fsRead fs j ++ [e]), fs.dirents⟩

/-- Control state of one in-flight request: not yet run; awaiting the
database query; in the fetch loop (pending items and the open stream's
inode), where `pending = []` means awaiting finalize with the synchronous
stat+rename+stream tail still to run; or finished. -/
inductive RPhase where
  | start
  | resolving
  | fetching (pending : List Photo) (fd : Nat)
  | done (o : Outcome)
deriving DecidableEq

/-- The synchronous prefix (atomic step 1): exactly `phase1`, over the
inode-level filesystem. -/
def stepCheck (env : DownloadEnv) (t : Token) (fs : FsState) : RPhase × FsState :=
  match jwtVerify env.secret env.nowMs t with
  | .expired => (.done .expired410, fs)
  | .invalid => (.done .invalid400, fs)
  | .ok p =>
    if p.photoIds = [] then (.done .noPhotos400, fs)
    else
      match fsLookup fs (cacheFileName t) with
      | some b =>
        if env.nowMs - b.mtimeMs < ZIP_CACHE_MAX_AGE then
          (.done (.servedCached (fsRead fs b.inode)), fs)
        else
          (.resolving, fsUnbind fs (cacheFileName t))
      | none => (.resolving, fs)

/-- Atomic step 2, after the database query (lines 974-1007): 404 when zero
rows resolve; otherwise the archive build starts — the write stream opens
on the shared per-key temp path (truncating whatever a concurrent same-key
build left there) and the fetch loop begins.  The flag records that an
archive build executed. -/
def stepResolve (env : DownloadEnv) (t : Token) (fs : FsState) :
    RPhase × FsState × Bool :=
  let sel := selectedPhotos env t.payload.photoIds
  if sel = [] then (.done .notFound404, fs, false)
  else
    (.fetching sel (fsCreate fs (tempZipName t) env.nowMs).2,
      (fsCreate fs (tempZipName t) env.nowMs).1, true)

/-- Atomic step 3, one fetch of the loop (lines 1019-1036): a successful
fetch appends the entry through the open stream; a failed one is logged and
skipped. -/
def stepFetch (env : DownloadEnv) (p : Photo) (rest : List Photo) (fd : Nat)
    (fs : FsState) : RPhase × FsState :=
  match env.fetch p.s3Key with
  | some b => (.fetching rest fd, fsAppend fs fd ⟨p.filename, b⟩)
  | none => (.fetching rest fd, fs)

/-- Atomic step 4, the synchronous tail after finalize (lines 1048-1060):
`statSync` the temp path — `ENOENT` (a same-key twin already renamed it)
lands in the catch-all 500; otherwise `renameSync` moves the inode bound at
the temp path over the final cache name and the response streams from the
final path. -/
def stepTail (env : DownloadEnv) (t : Token) (fs : FsState) : RPhase × FsState :=
  match fsLookup fs (tempZipName t) with
  | none => (.done .error500, fs)
  | some bt =>
    (.done (.servedBuilt (fsRead fs bt.inode)),
      ⟨fs.inodes,
        (fs.dirents.filter (fun x =>
          decide (¬ x.name = tempZipName t) && decide (¬ x.name = cacheFileName t)))
          ++ [⟨cacheFileName t, env.nowMs, bt.inode⟩]⟩)

/-- One inbound request of the interleaved model. -/
structure FReq where
  tok : Token
  phase : RPhase
deriving DecidableEq

/-- The shared state: the filesystem, the count of archive builds that have
executed, and the requests. -/
structure FSys where
  fs : FsState
  builds : Nat
  reqs : List FReq
deriving DecidableEq

/-- Request `i` takes its next atomic step (a no-op for an index out of
range or a finished request). -/
def stepFine (env : DownloadEnv) (s : FSys) (i : Nat) : FSys :=
  match s.reqs[i]? with
  | none => s
  | some r =>
    match r.phase with
    | .start =>
      ⟨(stepCheck env r.tok s.fs).2, s.builds,
        s.reqs.set i ⟨r.tok, (stepCheck env r.tok s.fs).1⟩⟩
    | .resolving =>
      ⟨(stepResolve env r.tok s.fs).2.1,
        s.builds + (if (stepResolve env r.tok s.fs).2.2 then 1 else 0),
        s.reqs.set i ⟨r.tok, (stepResolve env r.tok s.fs).1⟩⟩
    | .fetching [] _ =>
      ⟨(stepTail env r.tok s.fs).2, s.builds,
        s.reqs.set i ⟨r.tok, (stepTail env r.tok s.fs).1⟩⟩
    | .fetching (p :: rest) fd =>
      ⟨(stepFetch env p rest fd s.fs).2, s.builds,
        s.reqs.set i ⟨r.tok, (stepFetch env p rest fd s.fs).1⟩⟩
    | .done _ => s

/-- Run a schedule of request steps. -/
def runFine (env : DownloadEnv) : FSys → List Nat → FSys
  | s, [] => s
  | s, i :: rest => runFine env (stepFine env s i) rest

/-- The initial system: an empty filesystem and every request at its entry
point. -/
def initFine (toks : List Token) : FSys :=
  ⟨⟨[], []⟩, 0, toks.map (fun t => ⟨t, .start⟩)⟩

/-- `n` requests for the same token processed sequentially, each completing
before the next begins; collects the outcomes, the final directory and the
total number of archive builds. -/
def runSeq (env : DownloadEnv) (t : Token) :
    Nat → List CacheFile → List Outcome × List CacheFile × Nat
  | 0, dir => ([], dir, 0)
  | n + 1, dir =>
    let r := handleDownload env t dir
    let rest := runSeq env t n r.dir
    (r.outcome :: rest.1, rest.2.1, r.builds + rest.2.2)

/-! ### Helper lemmas -/

theorem jwtVerify_ok {secret nowMs : Nat} {t : Token}
    (hsig : t.sig = hmacSHA256 secret (payloadCode t.payload))
    (hexp : nowMs / 1000 < t.payload.exp) :
    jwtVerify secret nowMs t = .ok t.payload := by
  have h : ¬ (t.payload.exp ≤ nowMs / 1000) := by omega
  simp [jwtVerify, hsig, h]

theorem dirLookup_dirRemove (dir : List CacheFile) (n : List Char) :
    dirLookup (dirRemove dir n) n = none := by
  rw [dirLookup, List.find?_eq_none]
  intro f hf
  have := (List.mem_filter.1 hf).2
  simpa using this

theorem dirRemove_of_lookup_none {dir : List CacheFile} {n : List Char}
    (h : dirLookup dir n = none) : dirRemove dir n = dir := by
  rw [dirRemove, List.filter_eq_self]
  intro f hf
  have := List.find?_eq_none.1 h f hf
  simpa using this

theorem dirLookup_dirInstall (dir : List CacheFile) (n : List Char)
    (m : Nat) (es : List ZipEntry) :
    dirLookup (dirInstall dir n m es) n = some ⟨n, m, es⟩ := by
  rw [dirInstall, dirLookup, List.find?_append]
  have h1 : (dirRemove dir n).find? (fun f => decide (f.name = n)) = none :=
    dirLookup_dirRemove dir n
  rw [h1]
  simp [List.find?]

theorem phase1_ok_miss {env : DownloadEnv} {t : Token} {dir : List CacheFile}
    (hsig : t.sig = hmacSHA256 env.secret (payloadCode t.payload))
    (hexp : env.nowMs / 1000 < t.payload.exp)
    (hids : t.payload.photoIds ≠ [])
    (habs : dirLookup dir (cacheFileName t) = none) :
    phase1 env t dir = (.toBuild, dir) := by
  simp [phase1, jwtVerify_ok hsig hexp, hids, habs]

theorem handleDownload_build {env : DownloadEnv} {t : Token} {dir : List CacheFile}
    (hsig : t.sig = hmacSHA256 env.secret (payloadCode t.payload))
    (hexp : env.nowMs / 1000 < t.payload.exp)
    (hids : t.payload.photoIds ≠ [])
    (habs : dirLookup dir (cacheFileName t) = none)
    (hsel : selectedPhotos env t.payload.photoIds ≠ []) :
    handleDownload env t dir =
      ⟨.servedBuilt (buildEntries env (selectedPhotos env t.payload.photoIds)),
        dirInstall dir (cacheFileName t) env.nowMs
          (buildEntries env (selectedPhotos env t.payload.photoIds)), 1⟩ := by
  rw [handleDownload, phase1_ok_miss hsig hexp hids habs]
  simp [phase2, hsel]

theorem handleDownload_cached {env : DownloadEnv} {t : Token} {dir : List CacheFile}
    {f : CacheFile}
    (hsig : t.sig = hmacSHA256 env.secret (payloadCode t.payload))
    (hexp : env.nowMs / 1000 < t.payload.exp)
    (hids : t.payload.photoIds ≠ [])
    (hhit : dirLookup dir (cacheFileName t) = some f)
    (hfresh : env.nowMs - f.mtimeMs < ZIP_CACHE_MAX_AGE) :
    handleDownload env t dir = ⟨.servedCached f.entries, dir, 0⟩ := by
  rw [handleDownload]
  simp [phase1, jwtVerify_ok hsig hexp, hids, hhit, hfresh]

theorem handleDownload_invalid {env : DownloadEnv} {t : Token} {dir : List CacheFile}
    (hsig : t.sig ≠ hmacSHA256 env.secret (payloadCode t.payload)) :
    handleDownload env t dir = ⟨.invalid400, dir, 0⟩ := by
  have hver : jwtVerify env.secret env.nowMs t = .invalid := by
    simp [jwtVerify, hsig]
  rw [handleDownload]
  simp [phase1, hver]

/-! ### Concrete instances used by counterexamples and witnesses -/

/-- An object store holding bytes `[7]` under key `k1` and nothing else. -/
def fetchC : List Char → Option (List Nat) :=
  fun k => if k = ['k', '1'] then some [7] else none

/-- A failing object store: every fetch fails. -/
def fetchNone : List Char → Option (List Nat) := fun _ => none

/-- One upload row: id 1, S3 key `k1`, filename `a.jpg`. -/
def photoC : Photo := ⟨1, ['k', '1'], ['a', '.', 'j', 'p', 'g']⟩

/-- Environment: secret 0, clock 0, one upload, working object store. -/
def envC : DownloadEnv := ⟨0, 0, [photoC], fetchC⟩

/-- Environment identical to `envC` but with every object fetch failing. -/
def envC2 : DownloadEnv := ⟨0, 0, [photoC], fetchNone⟩

/-- A token for photo id 1, issued by this process at time 0. -/
def tokC : Token := issueToken 0 0 [['1']]

/-- Four tokens for the same photo set issued at four different timestamps:
four distinct cache keys. -/
def toksC3 : List Token :=
  [issueToken 0 0 [['1']], issueToken 0 1 [['1']],
   issueToken 0 2 [['1']], issueToken 0 3 [['1']]]

/-- The HTTP status a request has reached, if finished. -/
def phaseStatus : RPhase → Option Nat
  | .done o => some (statusOf o)
  | _ => none

/-! ### C1 — single-flight per cache key -/

/-- C1 counterexample: the handler has no single-flight coordination.  Two
requests carrying the same fresh token arrive concurrently; each runs its
synchronous cache check before either build has installed (both miss), and
then each runs its own resolve, fetch and finalize steps: two archive
builds execute, not the one the claim requires.  The schedule interleaves
at the handler's real `await` points (checks for both, then resolve, fetch
and tail for each). -/
theorem C1_counterexample :
    (runFine envC (initFine [tokC, tokC]) [0, 1, 0, 1, 0, 1, 0, 1]).builds = 2 := by
  decide

theorem runSeq_all_cached {env : DownloadEnv} {t : Token} {dir : List CacheFile}
    {es : List ZipEntry}
    (hsig : t.sig = hmacSHA256 env.secret (payloadCode t.payload))
    (hexp : env.nowMs / 1000 < t.payload.exp)
    (hids : t.payload.photoIds ≠ [])
    (hhit : dirLookup dir (cacheFileName t) = some ⟨cacheFileName t, env.nowMs, es⟩) :
    ∀ m, runSeq env t m dir = (List.replicate m (.servedCached es), dir, 0) := by
  intro m
  induction m with
  | zero => rfl
  | succ m ih =>
    have hfresh : env.nowMs - (⟨cacheFileName t, env.nowMs, es⟩ : CacheFile).mtimeMs
        < ZIP_CACHE_MAX_AGE := by
      simp [ZIP_CACHE_MAX_AGE]
    rw [runSeq]
    simp only [handleDownload_cached hsig hexp hids hhit hfresh, ih, List.replicate]

/-- C1 (amended): the code performs no in-flight wait, so concurrent
requests for the same key may each run a duplicate build
(`C1_counterexample`); what does hold is the sequential form — when N
requests for the same fresh token are processed one after another from a
cache with no entry for the key, exactly one archive build executes and
every request is served the byte-identical archive content. -/
theorem C1_single_build_sequential (env : DownloadEnv) (t : Token)
    (dir : List CacheFile) (n : Nat)
    (hsig : t.sig = hmacSHA256 env.secret (payloadCode t.payload))
    (hexp : env.nowMs / 1000 < t.payload.exp)
    (hids : t.payload.photoIds ≠ [])
    (habs : dirLookup dir (cacheFileName t) = none)
    (hsel : selectedPhotos env t.payload.photoIds ≠ []) :
    (runSeq env t (n + 1) dir).2.2 = 1
    ∧ ∀ o ∈ (runSeq env t (n + 1) dir).1,
        servesEntries o
          = some (buildEntries env (selectedPhotos env t.payload.photoIds)) := by
  have h1 := handleDownload_build hsig hexp hids habs hsel
  have hhit := dirLookup_dirInstall dir (cacheFileName t) env.nowMs
    (buildEntries env (selectedPhotos env t.payload.photoIds))
  have h2 := runSeq_all_cached hsig hexp hids hhit n
  constructor
  · rw [runSeq]
    simp [h1, h2]
  · intro o ho
    rw [runSeq] at ho
    simp only [h1, h2, List.mem_cons, List.mem_replicate] at ho
    rcases ho with rfl | ⟨_, rfl⟩ <;> rfl

theorem C1_witness :
    (runSeq envC tokC (1 + 1) []).2.2 = 1
    ∧ ∀ o ∈ (runSeq envC tokC (1 + 1) []).1,
        servesEntries o
          = some (buildEntries envC (selectedPhotos envC tokC.payload.photoIds)) :=
  C1_single_build_sequential envC tokC [] 1 (by decide) (by decide) (by decide)
    (by decide) (by decide)

/-! ### C3 — global concurrent-build limit -/

/-- C3 counterexample: four concurrent requests with four distinct cache
keys all run their builds simultaneously — after the four resolve steps all
four are mid-build at once, the build counter reaches 4, and every request
finishes 200.  There is no limit of 3 and no request is ever rejected with
a 429 `TooManyConcurrentBuilds` outcome (no such response exists in the
handler). -/
theorem C3_counterexample :
    (runFine envC (initFine toksC3)
        [0, 1, 2, 3, 0, 1, 2, 3, 0, 1, 2, 3, 0, 1, 2, 3]).builds = 4
    ∧ ∀ r ∈ (runFine envC (initFine toksC3)
        [0, 1, 2, 3, 0, 1, 2, 3, 0, 1, 2, 3, 0, 1, 2, 3]).reqs,
        phaseStatus r.phase = some 200 := by decide

/-- C3 (amended): the handler has no `TooManyConcurrentBuilds` condition
and no 429 response — its outcomes carry only the statuses 410, 400, 404,
200 and 500 — and it imposes no bound on concurrent builds: a request
resuming after its cache check is admitted unconditionally, whatever the
number of builds already in flight (the build counter plays no role in the
step).  When at least one referenced item resolves, its archive build
starts (the counter increments) and it enters the fetch loop; when none
does, it answers 404; it is never rejected or queued.  (A same-key
concurrent duplicate may still end in the 500 of the rename race — see
C4.) -/
theorem C3_no_concurrency_limit :
    (∀ o : Outcome, statusOf o ≠ 429)
    ∧ (∀ env : DownloadEnv, ∀ s : FSys, ∀ i : Nat, ∀ r : FReq,
       s.reqs[i]? = some r → r.phase = .resolving →
       selectedPhotos env r.tok.payload.photoIds ≠ [] →
       (stepFine env s i).builds = s.builds + 1
       ∧ (stepFine env s i).reqs[i]? =
           some ⟨r.tok, .fetching (selectedPhotos env r.tok.payload.photoIds)
             (fsCreate s.fs (tempZipName r.tok) env.nowMs).2⟩)
    ∧ (∀ env : DownloadEnv, ∀ s : FSys, ∀ i : Nat, ∀ r : FReq,
       s.reqs[i]? = some r → r.phase = .resolving →
       selectedPhotos env r.tok.payload.photoIds = [] →
       (stepFine env s i).builds = s.builds
       ∧ (stepFine env s i).reqs[i]? = some ⟨r.tok, .done .notFound404⟩) := by
  refine ⟨?_, ?_, ?_⟩
  · intro o
    cases o <;> simp [statusOf]
  · intro env s i r hr hb hsel
    have hlen : i < s.reqs.length := by
      rcases List.getElem?_eq_some.1 hr with ⟨h, _⟩
      exact h
    obtain ⟨tk, ph⟩ := r
    simp only at hb
    subst hb
    simp only [stepFine, hr]
    simp [stepResolve, hsel, List.getElem?_set_self hlen]
  · intro env s i r hr hb hsel
    have hlen : i < s.reqs.length := by
      rcases List.getElem?_eq_some.1 hr with ⟨h, _⟩
      exact h
    obtain ⟨tk, ph⟩ := r
    simp only at hb
    subst hb
    simp only [stepFine, hr]
    simp [stepResolve, hsel, List.getElem?_set_self hlen]

theorem C3_witness :
    (stepFine envC ⟨⟨[], []⟩, 7, [⟨tokC, .resolving⟩]⟩ 0).builds = 7 + 1
    ∧ (stepFine envC ⟨⟨[], []⟩, 7, [⟨tokC, .resolving⟩]⟩ 0).reqs[0]? =
        some ⟨tokC, .fetching (selectedPhotos envC tokC.payload.photoIds)
          (fsCreate (⟨[], []⟩ : FsState) (tempZipName tokC) envC.nowMs).2⟩ :=
  C3_no_concurrency_limit.2.1 envC ⟨⟨[], []⟩, 7, [⟨tokC, .resolving⟩]⟩ 0
    ⟨tokC, .resolving⟩ rfl rfl (by decide)

/-! ### C2 — zero-content builds -/

/-- C2 counterexample: the token verifies and its one referenced item
resolves from the database, but its fetch fails, so zero items yield
content.  The claim requires a `NoContent` build failure with no cache
entry installed; the handler instead finalizes an archive with no entries,
installs it under the cache key and serves it with 200. -/
theorem C2_counterexample :
    statusOf (handleDownload envC2 tokC []).outcome = 200
    ∧ (handleDownload envC2 tokC []).outcome = .servedBuilt []
    ∧ dirLookup (handleDownload envC2 tokC []).dir (cacheFileName tokC)
        = some ⟨cacheFileName tokC, 0, []⟩ := by decide

/-- C2 (amended): on a cache miss with a verified token, when zero
referenced items resolve from the database the response is a 404 failure
and nothing is installed; but when at least one item resolves and every
resolved item's fetch fails, the build does not fail — an empty archive is
installed under the cache key and served with 200 (`C2_counterexample`). -/
theorem C2_zero_content (env : DownloadEnv) (t : Token) (dir : List CacheFile)
    (hsig : t.sig = hmacSHA256 env.secret (payloadCode t.payload))
    (hexp : env.nowMs / 1000 < t.payload.exp)
    (hids : t.payload.photoIds ≠ [])
    (habs : dirLookup dir (cacheFileName t) = none) :
    (selectedPhotos env t.payload.photoIds = [] →
       handleDownload env t dir = ⟨.notFound404, dir, 0⟩)
    ∧ (selectedPhotos env t.payload.photoIds ≠ [] →
       (∀ ph ∈ selectedPhotos env t.payload.photoIds, env.fetch ph.s3Key = none) →
       handleDownload env t dir =
         ⟨.servedBuilt [], dirInstall dir (cacheFileName t) env.nowMs [], 1⟩) := by
  constructor
  · intro hsel
    rw [handleDownload, phase1_ok_miss hsig hexp hids habs]
    simp [phase2, hsel]
  · intro hsel hfail
    have hE : buildEntries env (selectedPhotos env t.payload.photoIds) = [] := by
      rw [buildEntries, List.filterMap_eq_nil_iff]
      intro ph hph
      rw [hfail ph hph]
      rfl
    have h := handleDownload_build hsig hexp hids habs hsel
    rw [hE] at h
    exact h

theorem C2_witness :
    handleDownload envC2 tokC [] =
      ⟨.servedBuilt [], dirInstall [] (cacheFileName tokC) 0 [], 1⟩ :=
  (C2_zero_content envC2 tokC [] (by decide) (by decide) (by decide) rfl).2
    (by decide) (by decide)

/-! ### C5 — staleness of cache entries -/

/-- C5: a cache entry whose age has reached the retention window is never
served: a fresh entry (age strictly below `ZIP_CACHE_MAX_AGE`) is streamed
directly from the cache with no build, while an entry at or past the window
is never served as cached content — it is deleted, and (when the referenced
items still resolve) exactly one rebuild runs and installs a new entry
under the key. -/
theorem C5_stale_never_served (env : DownloadEnv) (t : Token)
    (dir : List CacheFile) (f : CacheFile)
    (hsig : t.sig = hmacSHA256 env.secret (payloadCode t.payload))
    (hexp : env.nowMs / 1000 < t.payload.exp)
    (hids : t.payload.photoIds ≠ [])
    (hhit : dirLookup dir (cacheFileName t) = some f) :
    (env.nowMs - f.mtimeMs < ZIP_CACHE_MAX_AGE →
       handleDownload env t dir = ⟨.servedCached f.entries, dir, 0⟩)
    ∧ (ZIP_CACHE_MAX_AGE ≤ env.nowMs - f.mtimeMs →
       (∀ es, (handleDownload env t dir).outcome ≠ .servedCached es)
       ∧ (selectedPhotos env t.payload.photoIds ≠ [] →
          (handleDownload env t dir).builds = 1
          ∧ dirLookup (handleDownload env t dir).dir (cacheFileName t)
              = some ⟨cacheFileName t, env.nowMs,
                  buildEntries env (selectedPhotos env t.payload.photoIds)⟩)) := by
  constructor
  · intro hfresh
    exact handleDownload_cached hsig hexp hids hhit hfresh
  · intro hstale
    have hnf : ¬ (env.nowMs - f.mtimeMs < ZIP_CACHE_MAX_AGE) := by omega
    have hp1 : phase1 env t dir = (.toBuild, dirRemove dir (cacheFileName t)) := by
      simp [phase1, jwtVerify_ok hsig hexp, hids, hhit, hnf]
    by_cases hsel : selectedPhotos env t.payload.photoIds = []
    · constructor
      · intro es
        rw [handleDownload, hp1]
        simp [phase2, hsel]
      · intro hsel'
        exact absurd hsel hsel'
    · constructor
      · intro es
        rw [handleDownload, hp1]
        simp [phase2, hsel]
      · intro _
        rw [handleDownload, hp1]
        simp [phase2, hsel, dirLookup_dirInstall]

/-- The environment of the C5 witness: clock exactly one retention window
after the cached entry was written. -/
def envS : DownloadEnv := ⟨0, 3600000, [photoC], fetchC⟩

/-- The cache directory of the C5 witness: one entry for `tokC`, written at
time 0, so its age at `envS.nowMs` is exactly the retention window. -/
def dirS : List CacheFile := [⟨cacheFileName tokC, 0, [⟨['x'], [1]⟩]⟩]

theorem C5_witness :
    (∀ es, (handleDownload envS tokC dirS).outcome ≠ .servedCached es)
    ∧ (handleDownload envS tokC dirS).builds = 1
    ∧ dirLookup (handleDownload envS tokC dirS).dir (cacheFileName tokC)
        = some ⟨cacheFileName tokC, envS.nowMs,
            buildEntries envS (selectedPhotos envS tokC.payload.photoIds)⟩ := by
  have h := (C5_stale_never_served envS tokC dirS ⟨cacheFileName tokC, 0, [⟨['x'], [1]⟩]⟩
    (by decide) (by decide) (by decide) (by decide)).2 (by decide)
  exact ⟨h.1, (h.2 (by decide)).1, (h.2 (by decide)).2⟩

/-! ### C6 — verification precedes the cache, with terminal 410/400 -/

/-- C6: token verification happens before any cache access.  An expired
token (clock at or past `issuedAt + validityWindow`) yields the terminal
410 outcome for every cache state, with the cache unchanged and no build;
a token whose signature does not match its payload yields the terminal 400
outcome the same way; and a verified token whose payload carries no
non-empty photoIds array yields a terminal 400 with no build.  (A payload
the JWT library cannot parse surfaces as the same `JsonWebTokenError`
branch as a signature mismatch — in the model, the signature-mismatch
case.) -/
theorem C6_verify_before_cache :
    (∀ env : DownloadEnv, ∀ ids issuedMs dir,
       issuedMs / 1000 + DOWNLOAD_LINK_EXPIRY ≤ env.nowMs / 1000 →
       handleDownload env (issueToken env.secret issuedMs ids) dir
         = ⟨.expired410, dir, 0⟩)
    ∧ (∀ env : DownloadEnv, ∀ t dir,
       t.sig ≠ hmacSHA256 env.secret (payloadCode t.payload) →
       handleDownload env t dir = ⟨.invalid400, dir, 0⟩)
    ∧ (∀ env : DownloadEnv, ∀ t dir,
       t.sig = hmacSHA256 env.secret (payloadCode t.payload) →
       env.nowMs / 1000 < t.payload.exp →
       t.payload.photoIds = [] →
       handleDownload env t dir = ⟨.noPhotos400, dir, 0⟩)
    ∧ statusOf .expired410 = 410 ∧ statusOf .invalid400 = 400
    ∧ statusOf .noPhotos400 = 400 := by
  refine ⟨?_, ?_, ?_, rfl, rfl, rfl⟩
  · intro env ids issuedMs dir h
    have hver : jwtVerify env.secret env.nowMs (issueToken env.secret issuedMs ids)
        = .expired := by
      simp [jwtVerify, issueToken, jwtSign, h]
    rw [handleDownload]
    simp [phase1, hver]
  · intro env t dir h
    exact handleDownload_invalid h
  · intro env t dir hsig hexp hids
    rw [handleDownload]
    simp [phase1, jwtVerify_ok hsig hexp, hids]

/-- The environment of the C6 witness's expired branch: clock exactly seven
days (in milliseconds) after issuance. -/
def envE : DownloadEnv := ⟨0, 604800000, [photoC], fetchC⟩

/-- A token whose signature field does not match its payload. -/
def badTok : Token := ⟨(issueToken 0 0 [['1']]).payload, 0⟩

/-- A correctly signed token whose payload has an empty photoIds array. -/
def emptyTok : Token := jwtSign 0 ⟨[], 0, 604800⟩

theorem C6_witness :
    handleDownload envE (issueToken envE.secret 0 [['1']]) dirS
      = ⟨.expired410, dirS, 0⟩
    ∧ handleDownload envC badTok dirS = ⟨.invalid400, dirS, 0⟩
    ∧ handleDownload envC emptyTok dirS = ⟨.noPhotos400, dirS, 0⟩ :=
  ⟨C6_verify_before_cache.1 envE [['1']] 0 dirS (by decide),
   C6_verify_before_cache.2.1 envC badTok dirS (by decide),
   C6_verify_before_cache.2.2.1 envC emptyTok dirS (by decide) (by decide) rfl⟩

/-! ### C4 — temp paths, the janitor, and atomic install -/

/-- C4 counterexample: the temporary archive path is not outside the cache
namespace — `path.join(ZIP_CACHE_DIR, 'temp-' + hash + '.zip')` (line 1004)
puts it in the very directory `cleanupZipCache` sweeps, and the sweep stats
and deletes temp files like any others: a temp file whose age exceeds the
retention window is removed by the janitor. -/
theorem C4_counterexample :
    (tempZipPath tokC).dir = (cacheFilePath tokC).dir
    ∧ (tempZipPath tokC).dir = ZIP_CACHE_DIR
    ∧ cleanupZipCache 3600001 [⟨tempZipName tokC, 0, []⟩] = ([], 1) := by decide

/-- A temp name never equals a final cache name: temp names begin with the
`'temp-'` prefix while final names begin with the digest's first character
(in the real system a hex digit, here the token string's leading `'e'`). -/
theorem tempZipName_ne_cacheFileName (t t' : Token) :
    tempZipName t ≠ cacheFileName t' := by
  intro h
  simp only [tempZipName, tempPre, cacheFileName, tokenHash, sha256Hex, tokenEncode,
    tokenHead, List.cons_append, List.append_assoc] at h
  have h1 := congrArg List.head? h
  simp at h1

/-- `find?` by name commutes with a filter that keeps every `m`-named
element. -/
theorem find?_name_filter (l : List Binding) (m : List Char) (q : Binding → Bool)
    (hq : ∀ b ∈ l, b.name = m → q b = true) :
    (l.filter q).find? (fun b => decide (b.name = m))
      = l.find? (fun b => decide (b.name = m)) := by
  induction l with
  | nil => rfl
  | cons b0 l ih =>
    have ih' := ih fun b hb h => hq b (List.mem_cons_of_mem b0 hb) h
    by_cases hname : b0.name = m
    · have hq0 : q b0 = true := hq b0 (List.mem_cons_self b0 l) hname
      rw [List.filter_cons_of_pos hq0, List.find?_cons_of_pos _ (by simpa using hname),
        List.find?_cons_of_pos _ (by simpa using hname)]
    · by_cases hq0 : q b0 = true
      · rw [List.filter_cons_of_pos hq0, List.find?_cons_of_neg _ (by simpa using hname),
          List.find?_cons_of_neg _ (by simpa using hname), ih']
      · rw [List.filter_cons_of_neg (by simpa using hq0),
          List.find?_cons_of_neg _ (by simpa using hname), ih']

/-- Appending a differently named binding does not change a name lookup. -/
theorem find?_name_append_ne (l : List Binding) (x : Binding) (m : List Char)
    (hx : ¬ x.name = m) :
    (l ++ [x]).find? (fun b => decide (b.name = m))
      = l.find? (fun b => decide (b.name = m)) := by
  rw [List.find?_append]
  have h1 : [x].find? (fun b => decide (b.name = m)) = none := by
    simp [List.find?, hx]
  rw [h1, Option.or_none]

theorem fsLookup_fsUnbind_self (fs : FsState) (n : List Char) :
    fsLookup (fsUnbind fs n) n = none := by
  rw [fsLookup, List.find?_eq_none]
  intro b hb
  have h2 := (List.mem_filter.1 hb).2
  simpa using h2

theorem fsLookup_fsUnbind_ne (fs : FsState) (n m : List Char) (h : m ≠ n) :
    fsLookup (fsUnbind fs n) m = fsLookup fs m := by
  show (fs.dirents.filter (fun b => decide (¬ b.name = n))).find?
      (fun b => decide (b.name = m))
    = fs.dirents.find? (fun b => decide (b.name = m))
  apply find?_name_filter
  intro b _ hbm
  simp only [decide_eq_true_eq]
  rw [hbm]
  exact h

/-- `stepCheck` leaves the filesystem unchanged or unlinks the stale final
cache file. -/
theorem stepCheck_fs_cases (env : DownloadEnv) (t : Token) (fs : FsState) :
    (stepCheck env t fs).2 = fs
    ∨ (stepCheck env t fs).2 = fsUnbind fs (cacheFileName t) := by
  rw [stepCheck]
  repeat' split
  all_goals simp

/-- `stepFetch` never changes the directory bindings. -/
theorem stepFetch_dirents (env : DownloadEnv) (p : Photo) (rest : List Photo)
    (fd : Nat) (fs : FsState) :
    (stepFetch env p rest fd fs).2.dirents = fs.dirents := by
  rw [stepFetch]
  cases env.fetch p.s3Key <;> simp [fsAppend]

/-- C4 (amended): every archive is first written to the per-key temporary
path `temp-<key>.zip` — a name that can never equal a final cache name —
and a binding appears under a final cache path only through the single
`renameSync` performed after the renaming build's finalize (second
conjunct: across every atomic step of the interleaved model, a final cache
name's binding either already existed or was just moved there from that
build's temp path).  But the claim's protections themselves fail: the temp
path lies inside the cache directory that the janitor sweeps, which deletes
temp files past the window (`C4_counterexample`); and because concurrent
same-key builds share the one temp path, the first-finishing build's rename
exposes under the final cache path a file the other build is still writing.
The remaining conjuncts exhibit this race: after the schedule
`[0,1,0,1,0,0]` (two requests for the same token; the first has renamed)
the final cache name holds the finalized archive, one further step of the
second build mutates the file under the final name into content that is not
the finalized archive — a reader now observes a still-being-written file
under the final cache path — and the second build then ends in the
catch-all 500 when its own stat finds the temp path gone. -/
theorem C4_install_via_rename :
    (∀ t t' : Token, tempZipName t ≠ cacheFileName t')
    ∧ (∀ env : DownloadEnv, ∀ s : FSys, ∀ i : Nat, ∀ t : Token, ∀ b : Binding,
        fsLookup (stepFine env s i).fs (cacheFileName t) = some b →
        fsLookup s.fs (cacheFileName t) = some b
        ∨ ∃ r : FReq, ∃ fd : Nat, ∃ bt : Binding,
            s.reqs[i]? = some r ∧ r.phase = .fetching [] fd
            ∧ fsLookup s.fs (tempZipName r.tok) = some bt
            ∧ cacheFileName r.tok = cacheFileName t
            ∧ b = ⟨cacheFileName t, env.nowMs, bt.inode⟩)
    ∧ fsLookup (runFine envC (initFine [tokC, tokC]) [0, 1, 0, 1, 0, 0]).fs
        (cacheFileName tokC) = some ⟨cacheFileName tokC, 0, 0⟩
    ∧ fsRead (runFine envC (initFine [tokC, tokC]) [0, 1, 0, 1, 0, 0]).fs 0
        = buildEntries envC (selectedPhotos envC tokC.payload.photoIds)
    ∧ fsLookup (runFine envC (initFine [tokC, tokC]) [0, 1, 0, 1, 0, 0, 1]).fs
        (cacheFileName tokC) = some ⟨cacheFileName tokC, 0, 0⟩
    ∧ fsRead (runFine envC (initFine [tokC, tokC]) [0, 1, 0, 1, 0, 0, 1]).fs 0
        ≠ buildEntries envC (selectedPhotos envC tokC.payload.photoIds)
    ∧ (runFine envC (initFine [tokC, tokC]) [0, 1, 0, 1, 0, 0, 1, 1]).reqs[1]?
        = some ⟨tokC, .done .error500⟩ := by
  refine ⟨tempZipName_ne_cacheFileName, ?_, by decide, by decide, by decide,
    by decide, by decide⟩
  intro env s i t b hb
  cases hr : s.reqs[i]? with
  | none =>
    simp only [stepFine, hr] at hb
    exact Or.inl hb
  | some r =>
    obtain ⟨tk, ph⟩ := r
    cases ph with
    | start =>
      simp only [stepFine, hr] at hb
      rcases stepCheck_fs_cases env tk s.fs with h | h
      · rw [h] at hb
        exact Or.inl hb
      · rw [h] at hb
        by_cases hname : cacheFileName t = cacheFileName tk
        · rw [hname, fsLookup_fsUnbind_self] at hb
          exact absurd hb (by simp)
        · rw [fsLookup_fsUnbind_ne _ _ _ hname] at hb
          exact Or.inl hb
    | resolving =>
      simp only [stepFine, hr] at hb
      by_cases hsel : selectedPhotos env tk.payload.photoIds = []
      · have h : (stepResolve env tk s.fs).2.1 = s.fs := by
          simp [stepResolve, hsel]
        rw [h] at hb
        exact Or.inl hb
      · have h : (stepResolve env tk s.fs).2.1
            = (fsCreate s.fs (tempZipName tk) env.nowMs).1 := by
          simp [stepResolve, hsel]
        rw [h] at hb
        rw [fsCreate] at hb
        cases hl : fsLookup s.fs (tempZipName tk) with
        | some b0 =>
          rw [hl] at hb
          exact Or.inl hb
        | none =>
          rw [hl] at hb
          have hb2 : (s.fs.dirents
              ++ [(⟨tempZipName tk, env.nowMs, s.fs.inodes.length⟩ : Binding)]).find?
              (fun x : Binding => decide (x.name = cacheFileName t)) = some b := hb
          rw [find?_name_append_ne _ _ _ (tempZipName_ne_cacheFileName tk t)] at hb2
          exact Or.inl hb2
    | fetching pending fd =>
      cases pending with
      | cons p rest =>
        simp only [stepFine, hr] at hb
        have h : fsLookup (stepFetch env p rest fd s.fs).2 (cacheFileName t)
            = fsLookup s.fs (cacheFileName t) := by
          rw [fsLookup, fsLookup, stepFetch_dirents]
        rw [h] at hb
        exact Or.inl hb
      | nil =>
        simp only [stepFine, hr] at hb
        rw [stepTail] at hb
        cases hl : fsLookup s.fs (tempZipName tk) with
        | none =>
          rw [hl] at hb
          exact Or.inl hb
        | some bt =>
          rw [hl] at hb
          have hb2 : ((s.fs.dirents.filter (fun x : Binding =>
              decide (¬ x.name = tempZipName tk)
                && decide (¬ x.name = cacheFileName tk)))
              ++ [(⟨cacheFileName tk, env.nowMs, bt.inode⟩ : Binding)]).find?
              (fun x : Binding => decide (x.name = cacheFileName t)) = some b := hb
          by_cases hname : cacheFileName t = cacheFileName tk
          · have hleft : (s.fs.dirents.filter (fun x : Binding =>
                decide (¬ x.name = tempZipName tk)
                  && decide (¬ x.name = cacheFileName tk))).find?
                (fun x : Binding => decide (x.name = cacheFileName t)) = none := by
              rw [List.find?_eq_none]
              intro y hy
              have h2 := (List.mem_filter.1 hy).2
              simp only [Bool.and_eq_true, decide_eq_true_eq] at h2
              simp only [decide_eq_true_eq]
              rw [hname]
              exact h2.2
            rw [List.find?_append, hleft, Option.none_or,
              List.find?_cons_of_pos _ (by simpa using hname.symm)] at hb2
            right
            refine ⟨⟨tk, .fetching [] fd⟩, fd, bt, rfl, rfl, hl, hname.symm, ?_⟩
            have hb3 := Option.some.inj hb2
            rw [← hb3, hname]
          · have hfil : (s.fs.dirents.filter (fun x : Binding =>
                decide (¬ x.name = tempZipName tk)
                  && decide (¬ x.name = cacheFileName tk))).find?
                (fun x : Binding => decide (x.name = cacheFileName t))
                = s.fs.dirents.find?
                    (fun x : Binding => decide (x.name = cacheFileName t)) := by
              apply find?_name_filter
              intro y _ hy
              simp only [Bool.and_eq_true, decide_eq_true_eq]
              constructor
              · rw [hy]
                intro hx
                exact tempZipName_ne_cacheFileName tk t hx.symm
              · rw [hy]
                exact hname
            rw [find?_name_append_ne _ _ _ (fun hx => hname (hx.symm)), hfil] at hb2
            exact Or.inl hb2
    | done o =>
      simp only [stepFine, hr] at hb
      exact Or.inl hb

/-- The filesystem of the C4 witness: one archive fully written at the temp
path of `tokC`, its build about to run the stat+rename tail. -/
def fsW : FsState := ⟨[[⟨photoC.filename, [7]⟩]], [⟨tempZipName tokC, 0, 0⟩]⟩

/-- The system of the C4 witness: one request of `tokC` past its fetch
loop. -/
def sW : FSys := ⟨fsW, 1, [⟨tokC, .fetching [] 0⟩]⟩

theorem C4_witness :
    tempZipName tokC ≠ cacheFileName tokC
    ∧ (fsLookup sW.fs (cacheFileName tokC) = some ⟨cacheFileName tokC, 0, 0⟩
       ∨ ∃ r : FReq, ∃ fd : Nat, ∃ bt : Binding,
           sW.reqs[0]? = some r ∧ r.phase = .fetching [] fd
           ∧ fsLookup sW.fs (tempZipName r.tok) = some bt
           ∧ cacheFileName r.tok = cacheFileName tokC
           ∧ (⟨cacheFileName tokC, 0, 0⟩ : Binding)
               = ⟨cacheFileName tokC, envC.nowMs, bt.inode⟩) :=
  ⟨C4_install_via_rename.1 tokC tokC,
   C4_install_via_rename.2.1 envC sW 0 tokC ⟨cacheFileName tokC, 0, 0⟩ (by decide)⟩

/-! ### C9 — partial success -/

/-- C9: a failed individual fetch never aborts the build.  Whenever the
token verifies, the cache misses and the referenced items resolve, the
build completes with exactly the successfully fetched items under their
original display names (an entry is in the archive iff it is the name and
bytes of a resolved item whose fetch succeeded — failed items are simply
absent), the archive is installed under the cache key, and the response is
a 200.  The premise that at least one fetch succeeds is the claim's; the
handler does not in fact depend on it. -/
theorem C9_partial_success (env : DownloadEnv) (t : Token) (dir : List CacheFile)
    (hsig : t.sig = hmacSHA256 env.secret (payloadCode t.payload))
    (hexp : env.nowMs / 1000 < t.payload.exp)
    (hids : t.payload.photoIds ≠ [])
    (habs : dirLookup dir (cacheFileName t) = none)
    (hone : ∃ ph ∈ selectedPhotos env t.payload.photoIds, env.fetch ph.s3Key ≠ none) :
    handleDownload env t dir =
      ⟨.servedBuilt (buildEntries env (selectedPhotos env t.payload.photoIds)),
        dirInstall dir (cacheFileName t) env.nowMs
          (buildEntries env (selectedPhotos env t.payload.photoIds)), 1⟩
    ∧ statusOf (handleDownload env t dir).outcome = 200
    ∧ ∀ e : ZipEntry,
        e ∈ buildEntries env (selectedPhotos env t.payload.photoIds)
        ↔ ∃ ph ∈ selectedPhotos env t.payload.photoIds,
            env.fetch ph.s3Key = some e.data ∧ e.name = ph.filename := by
  have hsel : selectedPhotos env t.payload.photoIds ≠ [] := by
    rcases hone with ⟨ph, hph, _⟩
    intro h
    rw [h] at hph
    exact (List.not_mem_nil ph) hph
  have hmain := handleDownload_build hsig hexp hids habs hsel
  refine ⟨hmain, by rw [hmain]; rfl, ?_⟩
  intro e
  constructor
  · intro he
    rcases List.mem_filterMap.1 he with ⟨ph, hph, hfe⟩
    rcases Option.map_eq_some'.1 hfe with ⟨b, hb, hbe⟩
    refine ⟨ph, hph, ?_, ?_⟩
    · rw [hb, ← hbe]
    · rw [← hbe]
  · intro hex
    rcases hex with ⟨ph, hph, hfetch, hname⟩
    apply List.mem_filterMap.2
    refine ⟨ph, hph, ?_⟩
    rw [hfetch]
    cases e with
    | mk n d => simp at hname; rw [hname]; rfl

theorem C9_witness :
    handleDownload envC tokC [] =
      ⟨.servedBuilt (buildEntries envC (selectedPhotos envC tokC.payload.photoIds)),
        dirInstall [] (cacheFileName tokC) 0
          (buildEntries envC (selectedPhotos envC tokC.payload.photoIds)), 1⟩
    ∧ statusOf (handleDownload envC tokC []).outcome = 200
    ∧ ∀ e : ZipEntry,
        e ∈ buildEntries envC (selectedPhotos envC tokC.payload.photoIds)
        ↔ ∃ ph ∈ selectedPhotos envC tokC.payload.photoIds,
            envC.fetch ph.s3Key = some e.data ∧ e.name = ph.filename :=
  C9_partial_success envC tokC [] (by decide) (by decide) (by decide) rfl
    ⟨photoC, by decide, by decide⟩

/-! ### C10 — the signing secret across process restarts -/

/-- Line 238: `process.env.JWT_SECRET || crypto.randomBytes(32).toString('hex')`.
When the environment variable is set it is the secret; when unset the
secret is the fresh random value drawn at this process start.  The draw is
a parameter of the model; two independent 32-byte draws being distinct is
the (overwhelming-probability) randomness assumption, taken as a
hypothesis. -/
def JWT_SECRET (envVar : Option Nat) (randomBytes : Nat) : Nat :=
  match envVar with
  | some s => s
  | none => randomBytes

/-- C10: with `JWT_SECRET` unset in the environment, each process start
draws a fresh signing secret, so a token signed by one process instance
fails verification in a later instance whose draw differs: `jwt.verify`
reports the invalid-signature error and the endpoint answers the terminal
400 outcome with the cache untouched and no build — every outstanding link
is silently invalidated by a restart, before any expiry. -/
theorem C10_restart_invalidates (envVar : Option Nat) (seed1 seed2 : Nat)
    (p : Payload) (env : DownloadEnv) (dir : List CacheFile)
    (hunset : envVar = none) (hdiff : seed1 ≠ seed2)
    (hsecret : env.secret = JWT_SECRET envVar seed2) :
    jwtVerify env.secret env.nowMs (jwtSign (JWT_SECRET envVar seed1) p) = .invalid
    ∧ handleDownload env (jwtSign (JWT_SECRET envVar seed1) p) dir
        = ⟨.invalid400, dir, 0⟩
    ∧ statusOf .invalid400 = 400 := by
  subst hunset
  have hsig : (jwtSign (JWT_SECRET none seed1) p).sig
      ≠ hmacSHA256 env.secret (payloadCode (jwtSign (JWT_SECRET none seed1) p).payload) := by
    rw [hsecret]
    intro h
    have h2 := (Nat.pair_eq_pair.1 h).1
    exact hdiff h2
  refine ⟨?_, ?_, rfl⟩
  · simp [jwtVerify, hsig]
  · exact handleDownload_invalid hsig

theorem C10_witness :
    jwtVerify (JWT_SECRET none 2) 0 (jwtSign (JWT_SECRET none 1) tokC.payload) = .invalid
    ∧ handleDownload ⟨JWT_SECRET none 2, 0, [photoC], fetchC⟩
        (jwtSign (JWT_SECRET none 1) tokC.payload) dirS = ⟨.invalid400, dirS, 0⟩
    ∧ statusOf .invalid400 = 400 :=
  C10_restart_invalidates none 1 2 tokC.payload ⟨JWT_SECRET none 2, 0, [photoC], fetchC⟩
    dirS rfl (by decide) rfl

end WeddingPhotos
